import Mathlib

/-!
Shallow embedding of the land_battle_chess_server match engine.

`src/game_logic.rs` is embedded as pure functions (`compare_piece` and its
two stages `attack_result_of` and `victims_of`), and the match actor of
`src/main.rs` (`GameService::process_player_message` and the `GameService::run`
dispatch loop) as explicit state-passing functions.  Player identities
(`Address<Testnet3>` in the source) are opaque and modelled as `Nat`; u32/u64
wire integers are modelled as `Nat` (no arithmetic overflow is reachable: the
code only stores and compares them).  A Rust `panic!` (an `unwrap()` of `None`
or a `todo!()`) is modelled by the step function returning `none`; sink sends
are modelled as always succeeding and are collected in an output list.
-/

namespace LandBattle

/-- Piece enumeration from `src/game_logic.rs` (`#[repr(u64)] pub enum Piece`). -/
inductive Piece where
  | Empty
  | Flag
  | Bomb
  | Landmine
  | Engineer
  | Lieutenant
  | Captain
  | Major
  | Colonel
  | Brigadier
  | MajorGeneral
  | General
  | FieldMarshal
  | Unchanged
  | Opponent
deriving DecidableEq

/-- The `#[repr(u64)]` discriminants of `Piece` (Empty=0 .. FieldMarshal=12,
Unchanged=15, Opponent=16).  Rust's derived `PartialOrd` on this enum orders
variants by declaration order, which coincides with these discriminants, so
`attacker.piece > target.piece` in the source is `code` comparison here. -/
def Piece.code : Piece → Nat
  | .Empty => 0
  | .Flag => 1
  | .Bomb => 2
  | .Landmine => 3
  | .Engineer => 4
  | .Lieutenant => 5
  | .Captain => 6
  | .Major => 7
  | .Colonel => 8
  | .Brigadier => 9
  | .MajorGeneral => 10
  | .General => 11
  | .FieldMarshal => 12
  | .Unchanged => 15
  | .Opponent => 16

/-- Attack outcome from `src/game_logic.rs` (`#[repr(u32)] pub enum AttackResult`). -/
inductive AttackResult where
  | SimpleMove
  | Win
  | Draw
  | Lose
deriving DecidableEq

/-- `PieceInfo` from `src/game_logic.rs`: a piece plus the optional flag
coordinates supplied when the piece is the FieldMarshal. -/
structure PieceInfo where
  piece : Piece
  flag_x : Option Nat
  flag_y : Option Nat
deriving DecidableEq

/-- `MovePos` from `src/game_logic.rs`: origin and destination coordinates. -/
structure MovePos where
  x : Nat
  y : Nat
  target_x : Nat
  target_y : Nat
deriving DecidableEq

/-- `PieceMove` from `src/game_logic.rs`: the adjudication result. -/
structure PieceMove where
  x : Nat
  y : Nat
  target_x : Nat
  target_y : Nat
  attack_result : AttackResult
  flag_x : Option Nat
  flag_y : Option Nat
  opp_flag_x : Option Nat
  opp_flag_y : Option Nat
  game_winner : Nat
deriving DecidableEq

/-- The six-clause `if`/`else if` cascade computing `attack_result` at the top
of `compare_piece` (`src/game_logic.rs` lines 78-97). -/
def attack_result_of (attacker target : Piece) : AttackResult :=
  if target = Piece.Empty then
    AttackResult.SimpleMove
  else if attacker = Piece.Bomb ∨ target = Piece.Bomb then
    AttackResult.Draw
  else if target = Piece.Landmine then
    if attacker = Piece.Engineer then AttackResult.Win else AttackResult.Lose
  else if attacker.code > target.code then
    AttackResult.Win
  else if attacker = target then
    AttackResult.Draw
  else
    AttackResult.Lose

/-- The `match attack_result` block of `compare_piece` (lines 99-111) setting
`(victim, opp_victim)`; both start as `Piece::Empty`. -/
def victims_of (attacker target : Piece) : AttackResult → Piece × Piece
  | AttackResult.Win => (Piece.Empty, target)
  | AttackResult.Draw => (attacker, target)
  | AttackResult.Lose => (attacker, Piece.Empty)
  | AttackResult.SimpleMove => (Piece.Empty, Piece.Empty)

/-- `compare_piece` from `src/game_logic.rs` lines 68-141: compute the attack
result, derive victims, reveal flags when a FieldMarshal died, and set
`game_winner` (2 when the attacker lost the Flag, checked first; else 1 when
the defender lost the Flag; else 0). -/
def compare_piece (attacker target : PieceInfo) (move_pos : MovePos) : PieceMove :=
  let attack_result := attack_result_of attacker.piece target.piece
  let v := victims_of attacker.piece target.piece attack_result
  let victim := v.1
  let opp_victim := v.2
  let flag_x := if victim = Piece.FieldMarshal then attacker.flag_x else none
  let flag_y := if victim = Piece.FieldMarshal then attacker.flag_y else none
  let opp_flag_x := if opp_victim = Piece.FieldMarshal then target.flag_x else none
  let opp_flag_y := if opp_victim = Piece.FieldMarshal then target.flag_y else none
  let game_winner : Nat :=
    if victim = Piece.Flag then 2 else if opp_victim = Piece.Flag then 1 else 0
  { x := move_pos.x
    y := move_pos.y
    target_x := move_pos.target_x
    target_y := move_pos.target_y
    attack_result := attack_result
    flag_x := flag_x
    flag_y := flag_y
    opp_flag_x := opp_flag_x
    opp_flag_y := opp_flag_y
    game_winner := game_winner }

/-- `PlayerState` from `src/main.rs`. -/
inductive PlayerState where
  | Disconnected
  | Connected
  | Ready
deriving DecidableEq

/-- `Player` from `src/main.rs`: identity, lifecycle state, and the pending
piece/move stored between the mover's `Move` and the opponent's `Whisper`. -/
structure Player where
  pubkey : Nat
  state : PlayerState
  piece : Option PieceInfo
  move_pos : Option MovePos
deriving DecidableEq

/-- `GameService` from `src/main.rs`: the per-match actor state. -/
structure GameService where
  game_id : Nat
  arbiter : Nat
  players : Player × Player
  cur_player : Nat
deriving DecidableEq

/-- The inbound `GameMessage` variants the actor inspects
(`src/types.rs`); all remaining variants fall into the `_ => {}` arm of
`process_player_message` and are bundled as `other`. -/
inductive GameMessage where
  | ready (game_id : Nat)
  | move (piece : Piece) (x y target_x target_y : Nat) (flag_x flag_y : Option Nat)
  | whisper (piece : Piece) (x y : Nat) (flag_x flag_y : Option Nat)
  | other
deriving DecidableEq

/-- Destination of an outbound send inside `process_player_message`:
`player_tx` (the sender of the inbound message) or `opp_tx`. -/
inductive Dest where
  | sender
  | opp
deriving DecidableEq

/-- Outbound messages the actor can emit (`GameStart`, `PiecePos`,
`MoveResult`, `Role` from `src/types.rs`). -/
inductive OutMsg where
  | gameStart (game_id turn : Nat)
  | piecePos (mp : MovePos)
  | moveResult (pm : PieceMove)
  | role (game_id arbiter player1 player2 : Nat)
deriving DecidableEq

/-- `GameService::player_mut` (`src/main.rs` lines 342-350) as a lookup:
first slot checked first. -/
def GameService.playerFor (s : GameService) (pk : Nat) : Option Player :=
  if s.players.1.pubkey = pk then some s.players.1
  else if s.players.2.pubkey = pk then some s.players.2
  else none

/-- Functional update through `GameService::player_mut`: apply `f` to the slot
`player_mut(pk)` designates, identity when `pk` is unknown (the call sites
only reach the update after a successful lookup). -/
def GameService.setPlayer (s : GameService) (pk : Nat) (f : Player → Player) : GameService :=
  if s.players.1.pubkey = pk then { s with players := (f s.players.1, s.players.2) }
  else if s.players.2.pubkey = pk then { s with players := (s.players.1, f s.players.2) }
  else s

/-- `GameService::opponent` (`src/main.rs` lines 311-319). -/
def GameService.opponentFor (s : GameService) (pk : Nat) : Option Player :=
  if s.players.1.pubkey = pk then some s.players.2
  else if s.players.2.pubkey = pk then some s.players.1
  else none

/-- The `Whisper` arm's `opponent_mut(pubkey).unwrap()` followed by
`piece.take().unwrap()` and `move_pos.take().unwrap()` (`src/main.rs` lines
294-298): returns the taken attacker `PieceInfo` and `MovePos` together with
the state in which both are cleared, or `none` when the source would panic
(unknown sender, or no pending piece/move). -/
def GameService.takeOpponentPending (s : GameService) (pk : Nat) :
    Option (PieceInfo × MovePos × GameService) :=
  if s.players.1.pubkey = pk then
    match s.players.2.piece, s.players.2.move_pos with
    | some pi, some mp =>
        some (pi, mp,
          { s with players :=
              (s.players.1, { s.players.2 with piece := none, move_pos := none }) })
    | _, _ => none
  else if s.players.2.pubkey = pk then
    match s.players.1.piece, s.players.1.move_pos with
    | some pi, some mp =>
        some (pi, mp,
          { s with players :=
              ({ s.players.1 with piece := none, move_pos := none }, s.players.2) })
    | _, _ => none
  else none

/-- `GameService::process_player_message` (`src/main.rs` lines 216-309).
Returns `none` where the source panics (an `unwrap()` of `None`); otherwise
the updated state and the list of sink sends (sends are modelled as
succeeding; a failed send changes no state the claims observe). -/
def processPlayerMessage (s : GameService) (pk : Nat) (msg : GameMessage) :
    Option (GameService × List (Dest × OutMsg)) :=
  match msg with
  | GameMessage.ready _ =>
    match s.playerFor pk with
    | none => none
    | some _ =>
      let s1 := s.setPlayer pk (fun p => { p with state := PlayerState.Ready })
      match s1.opponentFor pk with
      | none => some (s1, [])
      | some opp =>
        if opp.state = PlayerState.Ready then
          some (s1, [(Dest.sender, OutMsg.gameStart s1.game_id s1.cur_player),
                     (Dest.opp, OutMsg.gameStart s1.game_id s1.cur_player)])
        else
          some (s1, [])
  | GameMessage.move piece x y target_x target_y flag_x flag_y =>
    if s.cur_player ≠ pk then
      some (s, [])
    else
      match s.playerFor pk with
      | none => none
      | some player =>
        if player.piece.isSome then
          some (s, [])
        else
          let pi : PieceInfo := { piece := piece, flag_x := flag_x, flag_y := flag_y }
          let mp : MovePos := { x := x, y := y, target_x := target_x, target_y := target_y }
          some (s.setPlayer pk (fun p => { p with piece := some pi, move_pos := some mp }),
                [(Dest.opp, OutMsg.piecePos mp)])
  | GameMessage.whisper piece _ _ flag_x flag_y =>
    if s.cur_player = pk then
      some (s, [])
    else
      let target : PieceInfo := { piece := piece, flag_x := flag_x, flag_y := flag_y }
      match s.takeOpponentPending pk with
      | none => none
      | some (attacker, move_pos, s1) =>
        let piece_move := compare_piece attacker target move_pos
        some ({ s1 with cur_player := pk },
              [(Dest.sender, OutMsg.moveResult piece_move),
               (Dest.opp, OutMsg.moveResult piece_move)])
  | GameMessage.other => some (s, [])

/-- `GameService::new` (`src/main.rs` lines 352-377). -/
def GameService.new (game_id arbiter player1 player2 : Nat) : GameService :=
  { game_id := game_id
    arbiter := arbiter
    players :=
      ({ pubkey := player1, state := PlayerState.Disconnected, piece := none, move_pos := none },
       { pubkey := player2, state := PlayerState.Disconnected, piece := none, move_pos := none })
    cur_player := player1 }

/-- `GameServiceMsg` from `src/main.rs`: the actor's inbound command queue
variants; a `PlayerConn` is reduced to its pubkey (its sink is modelled by
the output list). -/
inductive GameServiceMsg where
  | playerConnected (pk : Nat)
  | gameMessage (pk : Nat) (msg : GameMessage)
deriving DecidableEq

/-- The loop state of `GameService::run` (`src/main.rs` lines 155-214): the
actor state plus the `conns` pair; a stored connection is recorded by the
pubkey it was registered under. -/
structure RunState where
  svc : GameService
  conns : Option Nat × Option Nat
deriving DecidableEq

/-- One iteration of the `while let` loop of `GameService::run`
(`src/main.rs` lines 163-212).  `none` models a panic (`todo!()` on a second
connect of a non-Disconnected player, or a panic inside
`process_player_message`).  Sends are modelled as succeeding and addressed by
recipient pubkey.  A `GameMessage` command is dispatched to
`process_player_message` only when both `conns` slots are `Some`. -/
def runStep (st : RunState) (cmd : GameServiceMsg) : Option (RunState × List (Nat × OutMsg)) :=
  match cmd with
  | GameServiceMsg.playerConnected pk =>
    match st.svc.playerFor pk with
    | none =>
      -- unknown pubkey: `conn.exit_signal.send(())`, nothing stored
      some (st, [])
    | some player =>
      if player.state ≠ PlayerState.Disconnected then
        none
      else
        let svc1 := st.svc.setPlayer pk (fun p => { p with state := PlayerState.Connected })
        let conns1 :=
          if pk = st.svc.players.1.pubkey then (some pk, st.conns.2)
          else (st.conns.1, some pk)
        some ({ svc := svc1, conns := conns1 },
              [(pk, OutMsg.role st.svc.game_id st.svc.arbiter
                      st.svc.players.1.pubkey st.svc.players.2.pubkey)])
  | GameServiceMsg.gameMessage pk msg =>
    match st.conns with
    | (some c1, some c2) =>
      match processPlayerMessage st.svc pk msg with
      | none => none
      | some (svc1, outs) =>
        let toPk := fun (d : Dest) =>
          match d with
          | Dest.sender => if pk = c1 then c1 else c2
          | Dest.opp => if pk = c1 then c2 else c1
        some ({ svc := svc1, conns := st.conns }, outs.map (fun o => (toPk o.1, o.2)))
    | _ => some (st, [])

/-- The `2 =>` arm of the lobby `join` handler (`src/main.rs` lines 395-408):
two users already registered under the access code.  Result: HTTP status code
and error body.  `StatusCode::BAD_REQUEST` is 400. -/
def join_two_found (u0_pubkey u1_pubkey pubkey : Nat) : Nat × String :=
  if u0_pubkey ≠ pubkey ∧ u1_pubkey ≠ pubkey then
    (400, "access code used")
  else
    (400, "game started")

end LandBattle

namespace LandBattle

/-- The attack result field of `compare_piece` is the six-clause cascade. -/
theorem compare_piece_attack_result (a t : PieceInfo) (m : MovePos) :
    (compare_piece a t m).attack_result = attack_result_of a.piece t.piece := rfl

/-- C1: `compare_piece` computes `attack_result` by the six clauses in the
source's order, first match winning: Empty defender gives SimpleMove; else a
Bomb on either side gives Draw; else a Landmine defender gives Win exactly for
an Engineer attacker; else strictly higher integer encoding gives Win; equal
pieces give Draw; otherwise Lose.  In particular an Engineer attacking a Bomb
is a Draw, because the Bomb clause precedes the Landmine clause. -/
theorem C1_attack_result_clause_order (a t : PieceInfo) (m : MovePos) :
    (t.piece = Piece.Empty →
      (compare_piece a t m).attack_result = AttackResult.SimpleMove) ∧
    (t.piece ≠ Piece.Empty → (a.piece = Piece.Bomb ∨ t.piece = Piece.Bomb) →
      (compare_piece a t m).attack_result = AttackResult.Draw) ∧
    (t.piece ≠ Piece.Empty → a.piece ≠ Piece.Bomb → t.piece ≠ Piece.Bomb →
      t.piece = Piece.Landmine →
      (compare_piece a t m).attack_result =
        (if a.piece = Piece.Engineer then AttackResult.Win else AttackResult.Lose)) ∧
    (t.piece ≠ Piece.Empty → a.piece ≠ Piece.Bomb → t.piece ≠ Piece.Bomb →
      t.piece ≠ Piece.Landmine → a.piece.code > t.piece.code →
      (compare_piece a t m).attack_result = AttackResult.Win) ∧
    (t.piece ≠ Piece.Empty → a.piece ≠ Piece.Bomb → t.piece ≠ Piece.Bomb →
      t.piece ≠ Piece.Landmine → ¬ a.piece.code > t.piece.code → a.piece = t.piece →
      (compare_piece a t m).attack_result = AttackResult.Draw) ∧
    (t.piece ≠ Piece.Empty → a.piece ≠ Piece.Bomb → t.piece ≠ Piece.Bomb →
      t.piece ≠ Piece.Landmine → ¬ a.piece.code > t.piece.code → a.piece ≠ t.piece →
      (compare_piece a t m).attack_result = AttackResult.Lose) ∧
    (a.piece = Piece.Engineer → t.piece = Piece.Bomb →
      (compare_piece a t m).attack_result = AttackResult.Draw) := by
  rw [compare_piece_attack_result a t m]
  refine ⟨?_, ?_, ?_, ?_, ?_, ?_, ?_⟩ <;> intros <;>
    simp_all [attack_result_of]

/-- Witness for C1 at a concrete input: an Engineer attacking a Bomb is a
Draw. -/
theorem C1_attack_result_clause_order_witness :
    (⟨Piece.Bomb, none, none⟩ : PieceInfo).piece ≠ Piece.Empty ∧
    (compare_piece ⟨Piece.Engineer, none, none⟩ ⟨Piece.Bomb, none, none⟩
        ⟨0, 0, 0, 1⟩).attack_result = AttackResult.Draw :=
  ⟨by decide,
   (C1_attack_result_clause_order ⟨Piece.Engineer, none, none⟩ ⟨Piece.Bomb, none, none⟩
      ⟨0, 0, 0, 1⟩).2.2.2.2.2.2 rfl rfl⟩


/-- The game winner field of `compare_piece` is the victim-based cascade. -/
theorem compare_piece_game_winner (a t : PieceInfo) (m : MovePos) :
    (compare_piece a t m).game_winner =
      (if (victims_of a.piece t.piece (attack_result_of a.piece t.piece)).1 = Piece.Flag then 2
       else if (victims_of a.piece t.piece (attack_result_of a.piece t.piece)).2 = Piece.Flag
       then 1 else 0) := rfl

/-- C4: `game_winner` is 2 when the attacker's dead piece (`victim`) was the
Flag, checked first; else 1 when the defender's dead piece (`opp_victim`) was
the Flag; else 0.  A nonzero winner implies the corresponding side played the
Flag and lost it, and in the Flag-vs-Flag tie where both conditions apply the
result is 2. -/
theorem C4_game_winner (a t : PieceInfo) (m : MovePos) :
    ((compare_piece a t m).game_winner =
      (if (victims_of a.piece t.piece (compare_piece a t m).attack_result).1 = Piece.Flag then 2
       else if (victims_of a.piece t.piece (compare_piece a t m).attack_result).2 = Piece.Flag
       then 1 else 0)) ∧
    ((compare_piece a t m).game_winner ≠ 0 →
      a.piece = Piece.Flag ∨ t.piece = Piece.Flag) ∧
    ((compare_piece a t m).game_winner = 2 →
      (victims_of a.piece t.piece (compare_piece a t m).attack_result).1 = Piece.Flag ∧
      a.piece = Piece.Flag) ∧
    ((compare_piece a t m).game_winner = 1 →
      (victims_of a.piece t.piece (compare_piece a t m).attack_result).2 = Piece.Flag ∧
      t.piece = Piece.Flag) ∧
    (a.piece = Piece.Flag → t.piece = Piece.Flag →
      (compare_piece a t m).game_winner = 2) := by
  rw [compare_piece_attack_result a t m, compare_piece_game_winner a t m]
  refine ⟨rfl, ?_, ?_, ?_, ?_⟩
  · cases h : attack_result_of a.piece t.piece <;>
      simp_all [victims_of] <;>
      by_cases ha : a.piece = Piece.Flag <;> by_cases ht : t.piece = Piece.Flag <;>
      simp_all
  · cases h : attack_result_of a.piece t.piece <;>
      simp_all [victims_of] <;>
      by_cases ha : a.piece = Piece.Flag <;> by_cases ht : t.piece = Piece.Flag <;>
      simp_all
  · cases h : attack_result_of a.piece t.piece <;>
      simp_all [victims_of] <;>
      by_cases ha : a.piece = Piece.Flag <;> by_cases ht : t.piece = Piece.Flag <;>
      simp_all
  · intro ha ht
    rw [ha, ht]
    decide

/-- Witness for C4 at a concrete input: Flag attacking Flag is the tie case
and yields winner 2. -/
theorem C4_game_winner_witness :
    (⟨Piece.Flag, none, none⟩ : PieceInfo).piece = Piece.Flag ∧
    (compare_piece ⟨Piece.Flag, none, none⟩ ⟨Piece.Flag, none, none⟩
        ⟨0, 0, 0, 1⟩).game_winner = 2 :=
  ⟨rfl,
   (C4_game_winner ⟨Piece.Flag, none, none⟩ ⟨Piece.Flag, none, none⟩
      ⟨0, 0, 0, 1⟩).2.2.2.2 rfl rfl⟩

/-- C5: flag revelation per attack result.  On Win the attacker's flag fields
are absent and the defender's (`opp_flag_*`) are the defender's supplied flag
coordinates exactly when the defender was the FieldMarshal; on Draw both
sides follow their own FieldMarshal condition; on Lose only the attacker's
side can be revealed; on SimpleMove all four fields are absent. -/
theorem C5_flag_reveal (a t : PieceInfo) (m : MovePos) :
    ((compare_piece a t m).attack_result = AttackResult.Win →
      (compare_piece a t m).flag_x = none ∧ (compare_piece a t m).flag_y = none ∧
      (compare_piece a t m).opp_flag_x =
        (if t.piece = Piece.FieldMarshal then t.flag_x else none) ∧
      (compare_piece a t m).opp_flag_y =
        (if t.piece = Piece.FieldMarshal then t.flag_y else none)) ∧
    ((compare_piece a t m).attack_result = AttackResult.Draw →
      (compare_piece a t m).flag_x =
        (if a.piece = Piece.FieldMarshal then a.flag_x else none) ∧
      (compare_piece a t m).flag_y =
        (if a.piece = Piece.FieldMarshal then a.flag_y else none) ∧
      (compare_piece a t m).opp_flag_x =
        (if t.piece = Piece.FieldMarshal then t.flag_x else none) ∧
      (compare_piece a t m).opp_flag_y =
        (if t.piece = Piece.FieldMarshal then t.flag_y else none)) ∧
    ((compare_piece a t m).attack_result = AttackResult.Lose →
      (compare_piece a t m).flag_x =
        (if a.piece = Piece.FieldMarshal then a.flag_x else none) ∧
      (compare_piece a t m).flag_y =
        (if a.piece = Piece.FieldMarshal then a.flag_y else none) ∧
      (compare_piece a t m).opp_flag_x = none ∧
      (compare_piece a t m).opp_flag_y = none) ∧
    ((compare_piece a t m).attack_result = AttackResult.SimpleMove →
      (compare_piece a t m).flag_x = none ∧ (compare_piece a t m).flag_y = none ∧
      (compare_piece a t m).opp_flag_x = none ∧
      (compare_piece a t m).opp_flag_y = none) := by
  cases h : attack_result_of a.piece t.piece <;>
    refine ⟨?_, ?_, ?_, ?_⟩ <;>
    simp_all [compare_piece, victims_of]

/-- Witness for C5 at a concrete input: Bomb versus FieldMarshal is a Draw
that reveals only the defender's flag. -/
theorem C5_flag_reveal_witness :
    (compare_piece ⟨Piece.Bomb, none, none⟩ ⟨Piece.FieldMarshal, some 0, some 0⟩
        ⟨0, 0, 0, 1⟩).attack_result = AttackResult.Draw ∧
    (compare_piece ⟨Piece.Bomb, none, none⟩ ⟨Piece.FieldMarshal, some 0, some 0⟩
        ⟨0, 0, 0, 1⟩).flag_x =
      (if (⟨Piece.Bomb, none, none⟩ : PieceInfo).piece = Piece.FieldMarshal
       then (⟨Piece.Bomb, none, none⟩ : PieceInfo).flag_x else none) ∧
    (compare_piece ⟨Piece.Bomb, none, none⟩ ⟨Piece.FieldMarshal, some 0, some 0⟩
        ⟨0, 0, 0, 1⟩).flag_y =
      (if (⟨Piece.Bomb, none, none⟩ : PieceInfo).piece = Piece.FieldMarshal
       then (⟨Piece.Bomb, none, none⟩ : PieceInfo).flag_y else none) ∧
    (compare_piece ⟨Piece.Bomb, none, none⟩ ⟨Piece.FieldMarshal, some 0, some 0⟩
        ⟨0, 0, 0, 1⟩).opp_flag_x =
      (if (⟨Piece.FieldMarshal, some 0, some 0⟩ : PieceInfo).piece = Piece.FieldMarshal
       then (⟨Piece.FieldMarshal, some 0, some 0⟩ : PieceInfo).flag_x else none) ∧
    (compare_piece ⟨Piece.Bomb, none, none⟩ ⟨Piece.FieldMarshal, some 0, some 0⟩
        ⟨0, 0, 0, 1⟩).opp_flag_y =
      (if (⟨Piece.FieldMarshal, some 0, some 0⟩ : PieceInfo).piece = Piece.FieldMarshal
       then (⟨Piece.FieldMarshal, some 0, some 0⟩ : PieceInfo).flag_y else none) :=
  ⟨by decide,
   (C5_flag_reveal ⟨Piece.Bomb, none, none⟩ ⟨Piece.FieldMarshal, some 0, some 0⟩
      ⟨0, 0, 0, 1⟩).2.1 (by decide)⟩


/-- C3: the claim says a Whisper from the non-turn player while the turn
player has no pending piece is logged and dropped without a panic.  The code
instead reaches `player.piece.take().unwrap()` on a `None` pending piece and
panics (modelled as the step returning `none`), killing the match actor task:
evaluated here at the failing input (players 1 and 2, `cur_player = 1`,
no pending piece, Whisper from player 2). -/
theorem C3_whisper_no_pending_panics :
    processPlayerMessage
      { game_id := 7, arbiter := 0,
        players := (⟨1, PlayerState.Ready, none, none⟩, ⟨2, PlayerState.Ready, none, none⟩),
        cur_player := 1 }
      2 (GameMessage.whisper Piece.Engineer 0 1 none none) = none := rfl

/-- C9 counterexample: with users 1 and 2 registered under the access code
and requester pubkey 1 (one of the two), the code answers HTTP 400 with
"game started", not the claimed 409. -/
theorem C9_status_counterexample :
    join_two_found 1 2 1 = (400, "game started") ∧ (join_two_found 1 2 1).1 ≠ 409 := by
  constructor
  · rfl
  · decide

/-- C9 amended: when the access code already has two registered users, a
requester equal to one of them gets status 400 with error "game started"
(the source uses `StatusCode::BAD_REQUEST` in both arms), and any other
requester gets status 400 with error "access code used". -/
theorem C9_join_two_found_status (u0 u1 pk : Nat) :
    (pk = u0 ∨ pk = u1 → join_two_found u0 u1 pk = (400, "game started")) ∧
    (pk ≠ u0 → pk ≠ u1 → join_two_found u0 u1 pk = (400, "access code used")) := by
  constructor
  · intro h
    rcases h with h | h <;> simp [join_two_found, h]
  · intro h0 h1
    have h0s : u0 ≠ pk := fun he => h0 he.symm
    have h1s : u1 ≠ pk := fun he => h1 he.symm
    simp [join_two_found, h0s, h1s]

/-- Witness for C9 amended at concrete inputs: requester 1 among users 1 and
2, and requester 3 outside them. -/
theorem C9_join_two_found_status_witness :
    ((1 : Nat) = 1 ∨ (1 : Nat) = 2) ∧
    join_two_found 1 2 1 = (400, "game started") ∧
    (3 : Nat) ≠ 1 ∧ (3 : Nat) ≠ 2 ∧
    join_two_found 1 2 3 = (400, "access code used") :=
  ⟨Or.inl rfl,
   (C9_join_two_found_status 1 2 1).1 (Or.inl rfl),
   by decide, by decide,
   (C9_join_two_found_status 1 2 3).2 (by decide) (by decide)⟩


/-- Updating a player slot never touches `cur_player`. -/
theorem setPlayer_cur_player (s : GameService) (pk : Nat) (f : Player → Player) :
    (s.setPlayer pk f).cur_player = s.cur_player := by
  unfold GameService.setPlayer
  split_ifs <;> rfl

/-- Sample match state: players 1 and 2, player 1 to move with a pending
Flag at (0,0) moving onto (0,1), player 2 the defender. -/
def samplePending : GameService :=
  { game_id := 7, arbiter := 0,
    players := (⟨1, PlayerState.Ready, some ⟨Piece.Flag, none, none⟩, some ⟨0, 0, 0, 1⟩⟩,
                ⟨2, PlayerState.Ready, none, none⟩),
    cur_player := 1 }

/-- The state after player 2's Whisper adjudicates the sample pending move:
pendings cleared, turn with player 2. -/
def samplePostWhisper : GameService :=
  { game_id := 7, arbiter := 0,
    players := (⟨1, PlayerState.Ready, none, none⟩, ⟨2, PlayerState.Ready, none, none⟩),
    cur_player := 2 }

/-- The sample adjudication result: the Flag attacked an Engineer and lost,
so the attacker lost the Flag and `game_winner = 2`. -/
def sampleMoveResult : PieceMove :=
  ⟨0, 0, 0, 1, AttackResult.Lose, none, none, none, none, 2⟩

/-- The state after player 2, now the turn player, moves a Captain from
(0,5) to (0,6) following the decisive adjudication. -/
def samplePostMove : GameService :=
  { game_id := 7, arbiter := 0,
    players := (⟨1, PlayerState.Ready, none, none⟩,
                ⟨2, PlayerState.Ready, some ⟨Piece.Captain, none, none⟩, some ⟨0, 5, 0, 6⟩⟩),
    cur_player := 2 }

/-- C6: `cur_player` starts as player1 in `GameService::new`, and the only
transition that changes it is an accepted Whisper, which sets it to the
whisperer (the defender becomes the next mover). -/
theorem C6_turn_transitions :
    (∀ gid arb p1 p2 : Nat, (GameService.new gid arb p1 p2).cur_player = p1) ∧
    (∀ (s : GameService) (pk : Nat) (msg : GameMessage) (s1 : GameService)
        (outs : List (Dest × OutMsg)),
      processPlayerMessage s pk msg = some (s1, outs) →
      s1.cur_player = s.cur_player ∨
      (∃ piece x y fx fy, msg = GameMessage.whisper piece x y fx fy ∧
        s.cur_player ≠ pk ∧ s1.cur_player = pk)) ∧
    (∀ (st st1 : RunState) (pk : Nat) (outs : List (Nat × OutMsg)),
      runStep st (GameServiceMsg.playerConnected pk) = some (st1, outs) →
      st1.svc.cur_player = st.svc.cur_player) := by
  refine ⟨fun gid arb p1 p2 => rfl, ?_, ?_⟩
  case refine_2 =>
    intro st st1 pk outs h
    simp only [runStep] at h
    split at h
    · simp only [Option.some.injEq, Prod.mk.injEq] at h
      rw [← h.1]
    · split at h
      · cases h
      · simp only [Option.some.injEq, Prod.mk.injEq] at h
        rw [← h.1]
        exact setPlayer_cur_player st.svc pk _
  intro s pk msg s1 outs h
  cases msg with
  | ready gid =>
    left
    simp only [processPlayerMessage] at h
    split at h
    · cases h
    · split at h
      · simp only [Option.some.injEq, Prod.mk.injEq] at h
        rw [← h.1]
        exact setPlayer_cur_player s pk _
      · split at h <;>
        · simp only [Option.some.injEq, Prod.mk.injEq] at h
          rw [← h.1]
          exact setPlayer_cur_player s pk _
  | move piece x y tx ty fx fy =>
    left
    simp only [processPlayerMessage] at h
    split at h
    · simp only [Option.some.injEq, Prod.mk.injEq] at h
      rw [← h.1]
    · split at h
      · cases h
      · split at h
        · simp only [Option.some.injEq, Prod.mk.injEq] at h
          rw [← h.1]
        · simp only [Option.some.injEq, Prod.mk.injEq] at h
          rw [← h.1]
          exact setPlayer_cur_player s pk _
  | whisper piece x y fx fy =>
    simp only [processPlayerMessage] at h
    split at h
    next hc =>
      left
      simp only [Option.some.injEq, Prod.mk.injEq] at h
      rw [← h.1]
    next hc =>
      split at h
      · cases h
      · right
        simp only [Option.some.injEq, Prod.mk.injEq] at h
        exact ⟨piece, x, y, fx, fy, rfl, hc, by rw [← h.1]⟩
  | other =>
    left
    simp only [processPlayerMessage, Option.some.injEq, Prod.mk.injEq] at h
    rw [← h.1]

/-- Witness for C6: the initial turn of a fresh match is player1, and the
sample Whisper from player 2 sets the turn to player 2. -/
theorem C6_turn_transitions_witness :
    (GameService.new 7 0 1 2).cur_player = 1 ∧
    processPlayerMessage samplePending 2 (GameMessage.whisper Piece.Engineer 0 1 none none)
      = some (samplePostWhisper,
              [(Dest.sender, OutMsg.moveResult sampleMoveResult),
               (Dest.opp, OutMsg.moveResult sampleMoveResult)]) ∧
    (samplePostWhisper.cur_player = samplePending.cur_player ∨
      (∃ piece x y fx fy,
        GameMessage.whisper Piece.Engineer 0 1 none none
          = GameMessage.whisper piece x y fx fy ∧
        samplePending.cur_player ≠ 2 ∧ samplePostWhisper.cur_player = 2)) :=
  ⟨C6_turn_transitions.1 7 0 1 2, by decide,
   C6_turn_transitions.2.1 samplePending 2 (GameMessage.whisper Piece.Engineer 0 1 none none)
     samplePostWhisper
     [(Dest.sender, OutMsg.moveResult sampleMoveResult),
      (Dest.opp, OutMsg.moveResult sampleMoveResult)] (by decide)⟩

/-- C7: a Move from a player who is not the turn player, or from the turn
player while it already has a pending piece, leaves the state unchanged and
sends nothing (in particular no PiecePos reaches the opponent). -/
theorem C7_invalid_move_dropped (s : GameService) (pk : Nat) (piece : Piece)
    (x y tx ty : Nat) (fx fy : Option Nat)
    (h : s.cur_player ≠ pk ∨ ∃ p, s.playerFor pk = some p ∧ p.piece.isSome = true) :
    processPlayerMessage s pk (GameMessage.move piece x y tx ty fx fy) = some (s, []) := by
  by_cases hc : s.cur_player ≠ pk
  · simp [processPlayerMessage, hc]
  · rcases h with h | ⟨p, hp, hsome⟩
    · exact absurd h hc
    · have hce : s.cur_player = pk := not_not.mp hc
      simp [processPlayerMessage, hce, hp, hsome]

/-- Witness for C7: a Move from player 2 while the turn is with player 1 is
dropped, and a duplicate Move from player 1 with a pending piece is dropped. -/
theorem C7_invalid_move_dropped_witness :
    (samplePending.cur_player ≠ 2 ∨
      ∃ p, samplePending.playerFor 2 = some p ∧ p.piece.isSome = true) ∧
    processPlayerMessage samplePending 2 (GameMessage.move Piece.Captain 0 5 0 6 none none)
      = some (samplePending, []) ∧
    (samplePending.cur_player ≠ 1 ∨
      ∃ p, samplePending.playerFor 1 = some p ∧ p.piece.isSome = true) ∧
    processPlayerMessage samplePending 1 (GameMessage.move Piece.Captain 0 5 0 6 none none)
      = some (samplePending, []) :=
  ⟨Or.inl (by decide),
   C7_invalid_move_dropped samplePending 2 Piece.Captain 0 5 0 6 none none (Or.inl (by decide)),
   Or.inr ⟨⟨1, PlayerState.Ready, some ⟨Piece.Flag, none, none⟩, some ⟨0, 0, 0, 1⟩⟩,
           by decide, by decide⟩,
   C7_invalid_move_dropped samplePending 1 Piece.Captain 0 5 0 6 none none
     (Or.inr ⟨⟨1, PlayerState.Ready, some ⟨Piece.Flag, none, none⟩, some ⟨0, 0, 0, 1⟩⟩,
              by decide, by decide⟩)⟩

/-- C10: while either connection slot is still empty, the run loop discards
every inbound `GameMessage` command: the state (including player Ready
flags and pendings) is unchanged and nothing is sent. -/
theorem C10_no_dispatch_before_both_connected (st : RunState) (pk : Nat) (msg : GameMessage)
    (h : st.conns.1 = none ∨ st.conns.2 = none) :
    runStep st (GameServiceMsg.gameMessage pk msg) = some (st, []) := by
  simp only [runStep]
  rcases h1 : st.conns with ⟨c1, c2⟩
  rw [h1] at h
  rcases h with h | h
  · simp only at h
    subst h
    cases c2 <;> rfl
  · simp only at h
    subst h
    cases c1 <;> rfl

/-- Witness for C10: with only player 1 connected, a Ready from player 1 is
discarded and does not mark player 1 Ready. -/
theorem C10_no_dispatch_before_both_connected_witness :
    ((⟨GameService.new 7 0 1 2, (some 1, none)⟩ : RunState).conns.1 = none ∨
      (⟨GameService.new 7 0 1 2, (some 1, none)⟩ : RunState).conns.2 = none) ∧
    runStep ⟨GameService.new 7 0 1 2, (some 1, none)⟩
        (GameServiceMsg.gameMessage 1 (GameMessage.ready 7))
      = some (⟨GameService.new 7 0 1 2, (some 1, none)⟩, []) :=
  ⟨Or.inr rfl,
   C10_no_dispatch_before_both_connected ⟨GameService.new 7 0 1 2, (some 1, none)⟩ 1
     (GameMessage.ready 7) (Or.inr rfl)⟩


/-- Looking up the player slot after updating it with a pubkey-preserving
function finds the updated player. -/
theorem playerFor_setPlayer (s : GameService) (pk : Nat) (f : Player → Player)
    (p : Player) (hp : s.playerFor pk = some p) (hf : (f p).pubkey = p.pubkey) :
    (s.setPlayer pk f).playerFor pk = some (f p) := by
  unfold GameService.playerFor GameService.setPlayer at *
  by_cases h1 : s.players.1.pubkey = pk
  · simp only [h1, if_true, Option.some.injEq] at hp
    subst hp
    simp [h1, hf]
  · by_cases h2 : s.players.2.pubkey = pk
    · simp only [h1, if_false, h2, if_true, Option.some.injEq] at hp
      subst hp
      simp [h1, h2, hf]
    · simp [h1, h2] at hp

/-- C2 counterexample: with player 1's pending Flag adjudicated by player 2's
Whisper, the adjudication yields `game_winner = 2 ≠ 0`, yet the very next
Move from player 2 is accepted and mutates the match state: nothing is ever
marked terminated (no such flag exists in `GameService`), so the claim is
false at this input. -/
theorem C2_termination_counterexample :
    sampleMoveResult.game_winner ≠ 0 ∧
    processPlayerMessage samplePending 2 (GameMessage.whisper Piece.Engineer 0 1 none none)
      = some (samplePostWhisper,
              [(Dest.sender, OutMsg.moveResult sampleMoveResult),
               (Dest.opp, OutMsg.moveResult sampleMoveResult)]) ∧
    processPlayerMessage samplePostWhisper 2 (GameMessage.move Piece.Captain 0 5 0 6 none none)
      = some (samplePostMove, [(Dest.opp, OutMsg.piecePos ⟨0, 5, 0, 6⟩)]) ∧
    samplePostMove ≠ samplePostWhisper := by
  refine ⟨by decide, by decide, by decide, by decide⟩

/-- C2 amended: an adjudication producing `game_winner ≠ 0` does not
terminate the match — `GameService` has no terminated flag and the Whisper
arm never inspects `game_winner`.  Every accepted Whisper (whatever the
winner value) performs the same transition: pendings cleared, `cur_player`
set to the whisperer, `MoveResult` sent to both; and afterwards a Move from
the new turn player with no pending piece is still accepted and mutates the
state. -/
theorem C2_no_termination (s : GameService) (pk : Nat) (piece : Piece) (x y : Nat)
    (fx fy : Option Nat) (attacker : PieceInfo) (mp : MovePos) (sc : GameService)
    (hcur : s.cur_player ≠ pk)
    (htake : s.takeOpponentPending pk = some (attacker, mp, sc)) :
    processPlayerMessage s pk (GameMessage.whisper piece x y fx fy)
      = some ({ sc with cur_player := pk },
              [(Dest.sender, OutMsg.moveResult (compare_piece attacker ⟨piece, fx, fy⟩ mp)),
               (Dest.opp, OutMsg.moveResult (compare_piece attacker ⟨piece, fx, fy⟩ mp))]) ∧
    (∀ p2 : Player,
      ({ sc with cur_player := pk } : GameService).playerFor pk = some p2 →
      p2.piece = none →
      ∀ (mpiece : Piece) (mx my mtx mty : Nat) (mfx mfy : Option Nat),
        ∃ s2 outs2,
          processPlayerMessage { sc with cur_player := pk } pk
              (GameMessage.move mpiece mx my mtx mty mfx mfy) = some (s2, outs2) ∧
          s2 ≠ { sc with cur_player := pk }) := by
  constructor
  · simp only [processPlayerMessage, if_neg hcur, htake]
  · intro p2 hp2 hnone mpiece mx my mtx mty mfx mfy
    refine ⟨({ sc with cur_player := pk } : GameService).setPlayer pk
        (fun q => { q with
          piece := some ⟨mpiece, mfx, mfy⟩,
          move_pos := some ⟨mx, my, mtx, mty⟩ }),
      [(Dest.opp, OutMsg.piecePos ⟨mx, my, mtx, mty⟩)], ?_, ?_⟩
    · have hsome : p2.piece.isSome = false := by rw [hnone]; rfl
      simp [processPlayerMessage, hp2, hsome]
    · intro heq
      have hupd :
          (({ sc with cur_player := pk } : GameService).setPlayer pk
            (fun q => { q with
              piece := some ⟨mpiece, mfx, mfy⟩,
              move_pos := some ⟨mx, my, mtx, mty⟩ })).playerFor pk
          = some { p2 with
              piece := some ⟨mpiece, mfx, mfy⟩,
              move_pos := some ⟨mx, my, mtx, mty⟩ } :=
        playerFor_setPlayer _ pk _ p2 hp2 rfl
      rw [heq, hp2] at hupd
      have : p2.piece = some ⟨mpiece, mfx, mfy⟩ := by
        have h2 := Option.some.inj hupd
        rw [h2]
      rw [hnone] at this
      cases this

/-- The state `take` leaves behind inside the sample Whisper: both pendings
cleared, `cur_player` still 1 (it is reassigned right after). -/
def sampleCleared : GameService :=
  { game_id := 7, arbiter := 0,
    players := (⟨1, PlayerState.Ready, none, none⟩, ⟨2, PlayerState.Ready, none, none⟩),
    cur_player := 1 }

/-- Witness for C2 amended at the sample decisive adjudication. -/
theorem C2_no_termination_witness :
    samplePending.cur_player ≠ 2 ∧
    samplePending.takeOpponentPending 2
      = some (⟨Piece.Flag, none, none⟩, ⟨0, 0, 0, 1⟩, sampleCleared) ∧
    (processPlayerMessage samplePending 2 (GameMessage.whisper Piece.Engineer 0 1 none none)
      = some ({ sampleCleared with cur_player := 2 },
              [(Dest.sender, OutMsg.moveResult
                  (compare_piece ⟨Piece.Flag, none, none⟩ ⟨Piece.Engineer, none, none⟩
                    ⟨0, 0, 0, 1⟩)),
               (Dest.opp, OutMsg.moveResult
                  (compare_piece ⟨Piece.Flag, none, none⟩ ⟨Piece.Engineer, none, none⟩
                    ⟨0, 0, 0, 1⟩))]) ∧
     (∀ p2 : Player,
       ({ sampleCleared with cur_player := 2 } : GameService).playerFor 2 = some p2 →
       p2.piece = none →
       ∀ (mpiece : Piece) (mx my mtx mty : Nat) (mfx mfy : Option Nat),
         ∃ s2 outs2,
           processPlayerMessage { sampleCleared with cur_player := 2 } 2
               (GameMessage.move mpiece mx my mtx mty mfx mfy) = some (s2, outs2) ∧
           s2 ≠ { sampleCleared with cur_player := 2 })) :=
  ⟨by decide, by decide,
   C2_no_termination samplePending 2 Piece.Engineer 0 1 none none
     ⟨Piece.Flag, none, none⟩ ⟨0, 0, 0, 1⟩ sampleCleared (by decide) (by decide)⟩


/-- Inductive invariant of the match actor: the two player slots carry
distinct pubkeys, each player's pending piece and pending move are stored or
cleared together, and a player with a pending piece is the current turn
holder. -/
def GoodState (s : GameService) : Prop :=
  s.players.1.pubkey ≠ s.players.2.pubkey ∧
  s.players.1.piece.isSome = s.players.1.move_pos.isSome ∧
  s.players.2.piece.isSome = s.players.2.move_pos.isSome ∧
  (s.players.1.piece.isSome = true → s.cur_player = s.players.1.pubkey) ∧
  (s.players.2.piece.isSome = true → s.cur_player = s.players.2.pubkey)

/-- Marking a player Ready preserves the invariant. -/
theorem goodState_setReady (s : GameService) (pk : Nat) (hg : GoodState s) :
    GoodState (s.setPlayer pk fun q => { q with state := PlayerState.Ready }) := by
  unfold GameService.setPlayer
  split_ifs <;> exact hg

/-- Storing a pending piece and move together on the turn player preserves
the invariant. -/
theorem goodState_storeMove (s : GameService) (pk : Nat) (pi : PieceInfo) (mp : MovePos)
    (hg : GoodState s) (hcur : s.cur_player = pk) :
    GoodState (s.setPlayer pk fun q =>
      { q with piece := some pi, move_pos := some mp }) := by
  obtain ⟨hne, h1, h2, hc1, hc2⟩ := hg
  unfold GameService.setPlayer
  split_ifs with ha hb
  · exact ⟨hne, rfl, h2, fun _ => hcur.trans ha.symm, hc2⟩
  · exact ⟨hne, h1, rfl, hc1, fun _ => hcur.trans hb.symm⟩
  · exact ⟨hne, h1, h2, hc1, hc2⟩

/-- Clearing the mover's pending on an accepted Whisper and handing the turn
to the whisperer preserves the invariant. -/
theorem goodState_afterWhisper (s : GameService) (pk : Nat) (a : PieceInfo) (mp : MovePos)
    (sc : GameService) (hg : GoodState s)
    (ht : s.takeOpponentPending pk = some (a, mp, sc)) :
    GoodState { sc with cur_player := pk } := by
  obtain ⟨hne, h1, h2, hc1, hc2⟩ := hg
  unfold GameService.takeOpponentPending at ht
  split_ifs at ht with ha hb
  · rcases hpc : s.players.2.piece with _ | pi2 <;> rw [hpc] at ht
    · cases ht
    · rcases hmc : s.players.2.move_pos with _ | mp2 <;> rw [hmc] at ht
      · cases ht
      · simp only [Option.some.injEq, Prod.mk.injEq] at ht
        rw [← ht.2.2]
        exact ⟨hne, h1, rfl, fun _ => ha.symm, by simp⟩
  · rcases hpc : s.players.1.piece with _ | pi1 <;> rw [hpc] at ht
    · cases ht
    · rcases hmc : s.players.1.move_pos with _ | mp1 <;> rw [hmc] at ht
      · cases ht
      · simp only [Option.some.injEq, Prod.mk.injEq] at ht
        rw [← ht.2.2]
        exact ⟨hne, rfl, h2, by simp, fun _ => hb.symm⟩

/-- One `process_player_message` step preserves the invariant. -/
theorem goodState_step (s : GameService) (pk : Nat) (msg : GameMessage)
    (s1 : GameService) (outs : List (Dest × OutMsg)) (hg : GoodState s)
    (h : processPlayerMessage s pk msg = some (s1, outs)) : GoodState s1 := by
  cases msg with
  | ready gid =>
    simp only [processPlayerMessage] at h
    split at h
    · cases h
    · split at h
      · simp only [Option.some.injEq, Prod.mk.injEq] at h
        exact h.1 ▸ goodState_setReady s pk hg
      · split at h <;>
        · simp only [Option.some.injEq, Prod.mk.injEq] at h
          exact h.1 ▸ goodState_setReady s pk hg
  | move piece x y tx ty fx fy =>
    simp only [processPlayerMessage] at h
    split at h
    next hcur =>
      simp only [Option.some.injEq, Prod.mk.injEq] at h
      exact h.1 ▸ hg
    next hcur =>
      split at h
      · cases h
      · split at h
        · simp only [Option.some.injEq, Prod.mk.injEq] at h
          exact h.1 ▸ hg
        · simp only [Option.some.injEq, Prod.mk.injEq] at h
          exact h.1 ▸ goodState_storeMove s pk _ _ hg (not_not.mp hcur)
  | whisper piece x y fx fy =>
    simp only [processPlayerMessage] at h
    split at h
    · simp only [Option.some.injEq, Prod.mk.injEq] at h
      exact h.1 ▸ hg
    · split at h
      · cases h
      · simp only [Option.some.injEq, Prod.mk.injEq] at h
        next a mp sc heq =>
          exact h.1 ▸ goodState_afterWhisper s pk a mp sc hg heq
  | other =>
    simp only [processPlayerMessage, Option.some.injEq, Prod.mk.injEq] at h
    exact h.1 ▸ hg

/-- Match actor states reachable through `process_player_message` from
`GameService::new`.  The lobby (`join`, `src/main.rs` lines 409-446) spawns a
match only when the second joiner's pubkey differs from the first registered
user's, hence the `p1 ≠ p2` side condition on the initial state. -/
inductive Reachable : GameService → Prop
  | init (gid arb p1 p2 : Nat) (hne : p1 ≠ p2) : Reachable (GameService.new gid arb p1 p2)
  | step (s : GameService) (pk : Nat) (msg : GameMessage) (s1 : GameService)
      (outs : List (Dest × OutMsg)) (hs : Reachable s)
      (h : processPlayerMessage s pk msg = some (s1, outs)) : Reachable s1

/-- Every reachable state satisfies the inductive invariant. -/
theorem reachable_goodState (s : GameService) (hs : Reachable s) : GoodState s := by
  induction hs with
  | init gid arb p1 p2 hne =>
    exact ⟨hne, rfl, rfl, fun h => by simp [GameService.new] at h,
           fun h => by simp [GameService.new] at h⟩
  | step s pk msg s1 outs hs h ih => exact goodState_step s pk msg s1 outs ih h

/-- C8: in every reachable match state, each player's `pending_piece` is
stored exactly when its `pending_move` is (they are stored together by an
accepted Move and cleared together by the opponent's Whisper), and at most
one of the two players has a pending move. -/
theorem C8_pending_invariant (s : GameService) (hs : Reachable s) :
    s.players.1.piece.isSome = s.players.1.move_pos.isSome ∧
    s.players.2.piece.isSome = s.players.2.move_pos.isSome ∧
    ¬(s.players.1.piece.isSome = true ∧ s.players.2.piece.isSome = true) := by
  obtain ⟨hne, h1, h2, hc1, hc2⟩ := reachable_goodState s hs
  refine ⟨h1, h2, ?_⟩
  rintro ⟨ha, hb⟩
  exact hne ((hc1 ha).symm.trans (hc2 hb))

/-- Witness for C8 at the initial state of a fresh match between players 1
and 2. -/
theorem C8_pending_invariant_witness :
    (GameService.new 7 0 1 2).players.1.piece.isSome
        = (GameService.new 7 0 1 2).players.1.move_pos.isSome ∧
    (GameService.new 7 0 1 2).players.2.piece.isSome
        = (GameService.new 7 0 1 2).players.2.move_pos.isSome ∧
    ¬((GameService.new 7 0 1 2).players.1.piece.isSome = true ∧
      (GameService.new 7 0 1 2).players.2.piece.isSome = true) :=
  C8_pending_invariant (GameService.new 7 0 1 2) (Reachable.init 7 0 1 2 (by decide))

end LandBattle
